import Mathlib

/-!
Verification of the geosar twilight-phase engine (`src/geosar/main.py` and
`src/geosar/settings.py`).

The development shallowly embeds the core of the `GPX` class:

* the settings constants (phase labels and horizon angles);
* `GPX._observer_init` (median observer location, earliest-timestamp date);
* `GPX._sun_event` and the `GPX.sun_events` property (per-day rise/set events
  at four horizon angles, melt to rows, sort by instant, relabel "set" rows);
* `GPX._parse_track`, `GPX.track_data` and `GPX._expand_time_info`
  (flattening tracks into records, the phase classification scan, and the
  per-track start/end phase summary computed by groupby-first/last + merge).

Timestamps are modelled as integers (minutes on a common UTC scale),
coordinates as rationals.  The external astronomy capability (PyEphem's
`previous_rising` / `next_setting`) is a black box: it is modelled as a pair
of arbitrary functions from the observer state to an instant, so every
theorem below is parametric in that oracle unless it instantiates it.
-/

namespace Geosar

/-! ### Settings (`src/geosar/settings.py`) -/

/-- The six phase labels of `settings.py` (`NIGHT` … `PLANS`).  The Python
code stores them as strings; equality of labels is all the code ever uses,
so they are embedded as an enumeration. -/
inductive Phase where
  | night
  | astro
  | nauti
  | civil
  | shine
  | plans
deriving DecidableEq, Repr

/-- `NIGHT = 'Night'`. -/
def NIGHT : Phase := Phase.night

/-- `ASTRO = 'Astrological Twilight'` (sic, the source's spelling). -/
def ASTRO : Phase := Phase.astro

/-- `NAUTI = 'Nautical Twilight'`. -/
def NAUTI : Phase := Phase.nauti

/-- `CIVIL = 'Civil Twilight'`. -/
def CIVIL : Phase := Phase.civil

/-- `SHINE = 'Daytime'`. -/
def SHINE : Phase := Phase.shine

/-- `PLANS = 'Planning'`. -/
def PLANS : Phase := Phase.plans

/-- `ASTRO_HORIZ = '-18'` (degrees, parsed by ephem). -/
def ASTRO_HORIZ : Int := -18

/-- `NAUTI_HORIZ = '-12'`. -/
def NAUTI_HORIZ : Int := -12

/-- `CIVIL_HORIZ = '-6'`. -/
def CIVIL_HORIZ : Int := -6

/-- `SHINE_HORIZ = '0'`. -/
def SHINE_HORIZ : Int := 0

/-! ### Observer state and the external astronomy oracle -/

/-- The mutable fields of an `ephem.Observer` that the code reads or writes:
location (`lat`, `lon`), clock (`date`) and `horizon`.  Instants and the
horizon are integers, coordinates rationals. -/
structure ObsState where
  lat : ℚ
  lon : ℚ
  date : Int
  horizon : Int
deriving DecidableEq, Repr

/-- The external astronomy capability consumed by `_sun_event`:
`observer.previous_rising(sun)` and `observer.next_setting(sun)`, as
functions of the full observer state.  The code treats these as a black
box, so the embedding is parametric in this structure. -/
structure Ephem where
  prevRise : ObsState → Int
  nextSet : ObsState → Int

/-! ### Sun events (`GPX._sun_event`, `GPX.sun_events`) -/

/-- One dict produced by `GPX._sun_event`: keys `phase`, `rise`, `set`. -/
structure SunDict where
  phase : Phase
  rise : Int
  set : Int
deriving DecidableEq, Repr

/-- The two values of the melted `direction` column: `'rise'` and `'set'`. -/
inductive Direction where
  | rise
  | set
deriving DecidableEq, Repr

/-- One row of the melted/sorted `sun_events` frame: columns `phase`,
`direction`, `datetime`. -/
structure TimeRow where
  phase : Phase
  direction : Direction
  datetime : Int
deriving DecidableEq, Repr

/-- Instants are minutes; a calendar day `d` spans
`[d * 1440, (d + 1) * 1440)`. -/
def minutesPerDay : Int := 1440

/-- `datetime.datetime.combine(day, datetime.time(12, 0))`: 12:00 of
calendar day `d` (the naive noon the code assigns to `observer.date`;
its timezone reading is the oracle's business). -/
def noonOf (d : Int) : Int := d * minutesPerDay + 720

/-- `GPX._sun_event(horizon, phase)`: set `observer.horizon`, then query the
oracle for the previous rising and next setting from the current state. -/
def sunEvent (eph : Ephem) (st : ObsState) (horizon : Int) (phase : Phase) : SunDict :=
  { phase := phase
    rise := eph.prevRise { st with horizon := horizon }
    set := eph.nextSet { st with horizon := horizon } }

/-- The `phases` tuple of `GPX.sun_events`: the four (label, horizon)
pairs, in source order. -/
def phases : List (Phase × Int) :=
  [(ASTRO, ASTRO_HORIZ), (NAUTI, NAUTI_HORIZ), (CIVIL, CIVIL_HORIZ), (SHINE, SHINE_HORIZ)]

/-- The raw `times` list of `GPX.sun_events`: for each day index
`d ∈ range(int((end_date - start_date) / day) + 1)` the observer clock is set
to 12:00 of `start_date + d` and `_sun_event` is called for each of the four
phases.  `int(...) + 1` clipped at zero matches Python's empty `range` for a
negative argument. -/
def sunEventsRaw (eph : Ephem) (base : ObsState) (startD endD : Int) : List SunDict :=
  (List.range (endD - startD + 1).toNat).flatMap (fun d =>
    phases.map (fun ph =>
      sunEvent eph { base with date := noonOf (startD + (d : Int)) } ph.2 ph.1))

/-- `pd.DataFrame(times).melt(id_vars=['phase'], var_name='direction',
value_name='datetime')`: the `rise` column is stacked first, then the `set`
column, each preserving row order. -/
def melt (times : List SunDict) : List TimeRow :=
  times.map (fun e => { phase := e.phase, direction := Direction.rise, datetime := e.rise }) ++
    times.map (fun e => { phase := e.phase, direction := Direction.set, datetime := e.set })

/-- The sort key of `.sort_values('datetime')`. -/
def byDatetime (a b : TimeRow) : Prop := a.datetime ≤ b.datetime

instance : DecidableRel byDatetime := fun a b => Int.decLe a.datetime b.datetime

instance : IsTotal TimeRow byDatetime := ⟨fun a b => Int.le_total a.datetime b.datetime⟩

instance : IsTrans TimeRow byDatetime := ⟨fun _ _ _ h1 h2 => le_trans h1 h2⟩

/-- `.sort_values('datetime').reset_index(drop=True)`: a sort of the rows by
instant (ties in arbitrary order). -/
def sortByDatetime (rows : List TimeRow) : List TimeRow :=
  List.insertionSort byDatetime rows

/-- The `setting_shifts` tuple: (from-label, to-label) pairs, in source
order. -/
def settingShifts : List (Phase × Phase) :=
  [(ASTRO, NIGHT), (NAUTI, ASTRO), (CIVIL, NAUTI), (SHINE, CIVIL)]

/-- One iteration of the relabeling loop:
`times.loc[(times.direction == 'set') & (times.phase == _from), 'phase'] = _to`. -/
def relabelStep (rows : List TimeRow) (pr : Phase × Phase) : List TimeRow :=
  rows.map (fun r =>
    if r.direction = Direction.set ∧ r.phase = pr.1 then { r with phase := pr.2 } else r)

/-- The full `for _from, _to in setting_shifts:` loop, applied sequentially
in source order. -/
def relabelAll (rows : List TimeRow) : List TimeRow :=
  settingShifts.foldl relabelStep rows

/-- `GPX.sun_events`: raw per-day events, melted to rows, sorted by instant,
then the setting rows relabeled.  (The final `tz_localize('UTC')` only tags
the dtype and does not change the instants.) -/
def sunEvents (eph : Ephem) (base : ObsState) (startD endD : Int) : List TimeRow :=
  relabelAll (sortByDatetime (melt (sunEventsRaw eph base startD endD)))

/-- The relabeling of one `set` event as one fixed map, written from the
spec's table (set(Astronomical) → Night, set(Nautical) → Astronomical,
set(Civil) → Nautical, set(Daytime) → Civil) in order to compare it with the
sequential loop `relabelAll` of the source. -/
def setShift : Phase → Phase
  | Phase.astro => Phase.night
  | Phase.nauti => Phase.astro
  | Phase.civil => Phase.nauti
  | Phase.shine => Phase.civil
  | p => p

/-- A single application of the spec's relabeling to one row: `set` rows get
`setShift`, `rise` rows are untouched. -/
def shiftRow (r : TimeRow) : TimeRow :=
  if r.direction = Direction.set then { r with phase := setShift r.phase } else r

/-! ### Track records (`GPX._parse_track`, `GPX.track_data`) -/

/-- One GPX track point as the core consumes it: coordinates and an
optional timestamp (absent or unparseable timestamps are the `none`
marker that `pd.to_datetime(errors='coerce')` turns into `NaT`). -/
structure TrackPoint where
  latitude : ℚ
  longitude : ℚ
  time : Option Int
deriving DecidableEq, Repr

/-- One GPX track: name, description, and point segments. -/
structure Track where
  name : String
  description : String
  segments : List (List TrackPoint)
deriving DecidableEq, Repr

/-- One flat record as produced by `GPX._parse_track`: the point fields
(`time` renamed to `utc`), the sequential track `id`, and the track's
`name` and `description`. -/
structure RawRec where
  id : Nat
  latitude : ℚ
  longitude : ℚ
  utc : Option Int
  name : String
  description : String
deriving DecidableEq, Repr

/-- A record after the classification scan added its `phase` column. -/
structure PhasedRec extends RawRec where
  phase : Phase
deriving DecidableEq, Repr

/-- A record after the two merges added `start_phase` and `end_phase`. -/
structure OutRec extends PhasedRec where
  start_phase : Phase
  end_phase : Phase
deriving DecidableEq, Repr

/-- `GPX._parse_track(track, index)`: one record per point of every
segment, tagged with the sequential `index` and the track name and
description. -/
def parseTrack (track : Track) (index : Nat) : List RawRec :=
  track.segments.flatMap (fun seg =>
    seg.map (fun p =>
      { id := index
        latitude := p.latitude
        longitude := p.longitude
        utc := p.time
        name := track.name
        description := track.description }))

/-- `pd.concat([self._parse_track(track, index) for index, track in
enumerate(self.tracks)])`. -/
def allTracksDf (tracks : List Track) : List RawRec :=
  (tracks.enum.map (fun it => parseTrack it.2 it.1)).flatten

/-! ### Phase classification (`GPX._expand_time_info`) -/

/-- The overwrite scan of `_expand_time_info` for one timestamped record:
start from `NIGHT` (the `df.loc[~df.utc.isnull(), 'phase'] = s.NIGHT`
default) and, for each event row in frame order, overwrite the phase
whenever `utc >= event.datetime`. -/
def classify (timeline : List TimeRow) (t : Int) : Phase :=
  timeline.foldl (fun acc e => if e.datetime ≤ t then e.phase else acc) NIGHT

/-- The net phase of one record: `df['phase'] = s.PLANS` is the default,
records with a timestamp start at `NIGHT` and are then overwritten by the
event scan; rows with a null `utc` never satisfy `df.utc >= event.datetime`
and keep `PLANS`. -/
def recordPhase (timeline : List TimeRow) : Option Int → Phase
  | none => PLANS
  | some t => classify timeline t

/-- The classification step of `_expand_time_info` on a whole frame. -/
def addPhase (timeline : List TimeRow) (r : RawRec) : PhasedRec :=
  { toRawRec := r, phase := recordPhase timeline r.utc }

/-- The group keys of `df[['id', 'phase']].groupby('id')`: the distinct
`id` values, in ascending order (pandas sorts group keys). -/
def groupKeys (wp : List PhasedRec) : List Nat :=
  List.insertionSort (fun a b => a ≤ b) ((wp.map (fun r => r.id)).dedup)

/-- `groupby('id').first().reset_index().rename(columns={'phase':
'start_phase'})`: one `(id, phase-of-first-record-of-that-group)` row per
key.  `phase` is never null, so pandas' first-non-null is the first row of
the group in frame order. -/
def firstTable (wp : List PhasedRec) : List (Nat × Phase) :=
  (groupKeys wp).map (fun i =>
    (i, ((wp.find? (fun r => r.id == i)).map (fun r => r.phase)).getD PLANS))

/-- `groupby('id').last()` with `phase` renamed to `end_phase`: one
`(id, phase-of-last-record-of-that-group)` row per key. -/
def lastTable (wp : List PhasedRec) : List (Nat × Phase) :=
  (groupKeys wp).map (fun i =>
    (i, ((wp.reverse.find? (fun r => r.id == i)).map (fun r => r.phase)).getD PLANS))

/-- `GPX._expand_time_info(df)`: classify every record, then inner-merge the
groupby-first table (as `start_phase`) and the groupby-last table (as
`end_phase`) on `id`.  An inner merge keeps a left row only when its key is
present in the right table, whence the `filterMap`. -/
def expandTimeInfo (timeline : List TimeRow) (df : List RawRec) : List OutRec :=
  let wp := df.map (addPhase timeline)
  wp.filterMap (fun r =>
    match (firstTable wp).lookup r.id, (lastTable wp).lookup r.id with
    | some sp, some ep => some { toPhasedRec := r, start_phase := sp, end_phase := ep }
    | _, _ => none)

/-- `GPX.track_data(time)`: concatenate the parsed tracks, expand the time
info, then return all records (`time=None`), only the timestamped ones
(`time=True`, `~df.utc.isnull()`) or only the untimestamped ones
(`time=False`, `df.utc.isnull()`). -/
def trackData (timeline : List TimeRow) (tracks : List Track) (time : Option Bool) :
    List OutRec :=
  match time with
  | none => expandTimeInfo timeline (allTracksDf tracks)
  | some true => (expandTimeInfo timeline (allTracksDf tracks)).filter (fun r => !r.utc.isNone)
  | some false => (expandTimeInfo timeline (allTracksDf tracks)).filter (fun r => r.utc.isNone)

/-! ### Observer initialisation (`GPX._observer_init`) -/

/-- `self.walk()`: every track point of every segment of every track, in
traversal order. -/
def walkPoints (tracks : List Track) : List TrackPoint :=
  tracks.flatMap (fun t => t.segments.flatten)

/-- The observer value built by `_observer_init`: location and reference
date (`obs.date` is `get_time_bounds().start_time`, which is `none` when no
point carries a timestamp). -/
structure Observer where
  lat : ℚ
  lon : ℚ
  date : Option Int
deriving DecidableEq, Repr

/-- Modelled from the spec: `InsufficientDataError`, the error type the spec
names for an empty point set, exists nowhere in the code, so it is added
here only so that the spec's contract can be stated.  `typeError` embeds
what `_observer_init` actually raises on an empty point set: `np.median` of
the empty array is a scalar `nan`, and unpacking it into `mid_lat, mid_lon`
raises a `TypeError`. -/
inductive PyError where
  | typeError
  | insufficientDataError
deriving DecidableEq, Repr

/-- `np.median` on one axis: sort the values; for an odd count take the
middle element, for an even count the mean of the two middle elements. -/
def npMedian (l : List ℚ) : ℚ :=
  let s := List.insertionSort (fun a b => a ≤ b) l
  if l.length % 2 = 1 then s.getD (l.length / 2) 0
  else (s.getD (l.length / 2 - 1) 0 + s.getD (l.length / 2) 0) / 2

/-- Modelled from the spec: `get_time_bounds().start_time`, the earliest
timestamp across all points (the external GPX-parsing capability's time
bounds; gpxpy itself is not part of this repository). -/
def timeBoundsStart (tracks : List Track) : Option Int :=
  ((walkPoints tracks).filterMap (fun p => p.time)).min?

/-- `GPX._observer_init`: gather the `(latitude, longitude)` pair of every
walked point, take `np.median(pts, axis=0)` (the per-axis medians), and date
the observer to `get_time_bounds().start_time`.  On an empty point set the
unpacking of the scalar `nan` median fails (see `PyError.typeError`). -/
def observerInit (tracks : List Track) : Except PyError Observer :=
  let pts := (walkPoints tracks).map (fun p => (p.latitude, p.longitude))
  if pts.isEmpty then Except.error PyError.typeError
  else
    Except.ok
      { lat := npMedian (pts.map Prod.fst)
        lon := npMedian (pts.map Prod.snd)
        date := timeBoundsStart tracks }

/-! ### Concrete inputs used by witnesses and counterexamples -/

/-- A concrete observer base state. -/
def baseObs : ObsState := { lat := 0, lon := 0, date := 0, horizon := 0 }

/-- A degenerate oracle that answers every query with instant 0. -/
def constEph : Ephem := { prevRise := fun _ => 0, nextSet := fun _ => 0 }

/-- An oracle whose events all fall late in the day (rise 1000, set 2000),
so that small timestamps precede every breakpoint. -/
def lateEph : Ephem := { prevRise := fun _ => 1000, nextSet := fun _ => 2000 }

/-- A well-behaved oracle: the rise is before the anchor, the set after it,
and distinct horizons give distinct instants. -/
def wEph : Ephem :=
  { prevRise := fun st => st.date - 200 - (st.horizon.natAbs : Int)
    nextSet := fun st => st.date + 200 + (st.horizon.natAbs : Int) }

/-- The concrete timeline generated by the well-behaved oracle for a
one-day mission. -/
def wTimeline : List TimeRow := sunEvents wEph baseObs 0 0

/-- A concrete one-track input with three points (one of them without a
timestamp). -/
def wTracks : List Track :=
  [{ name := "t0"
     description := "d0"
     segments := [[{ latitude := 1, longitude := 2, time := some 100 },
                   { latitude := 5, longitude := 4, time := none },
                   { latitude := 3, longitude := 6, time := some 50 }]] }]

/-! ### Helper lemmas -/

theorem mem_of_getLast?_eq_some {α : Type} {l : List α} {b : α} (h : l.getLast? = some b) :
    b ∈ l := by
  rcases List.getLast?_eq_some_iff.mp h with ⟨ys, rfl⟩
  simp

/-- The last-writer-wins fold of the classification scan equals the last
element of the timeline filtered to breakpoints at or before `t` (or the
`NIGHT` default when no breakpoint is at or before `t`). -/
theorem classify_eq (timeline : List TimeRow) (t : Int) :
    classify timeline t =
      (((timeline.filter (fun e => decide (e.datetime ≤ t))).getLast?).map
        (fun e => e.phase)).getD NIGHT := by
  induction timeline using List.reverseRecOn with
  | nil => rfl
  | append_singleton l e ih =>
      by_cases h : e.datetime ≤ t
      · simp [classify, List.foldl_append, h, List.filter_append, List.getLast?_concat]
      · simp only [classify, List.foldl_append, List.foldl_cons, List.foldl_nil, if_neg h,
          List.filter_append, List.filter_cons, decide_eq_true_eq, h, ite_false,
          List.filter_nil, List.append_nil]
        exact ih

/-- In a list sorted non-decreasingly by instant, every element's instant is
at most the instant of the last element. -/
theorem pairwise_le_getLast? {l : List TimeRow} (hp : l.Pairwise byDatetime) {b : TimeRow}
    (hb : l.getLast? = some b) : ∀ a ∈ l, a.datetime ≤ b.datetime := by
  induction l with
  | nil => simp at hb
  | cons x xs ih =>
      rcases List.pairwise_cons.mp hp with ⟨hx, hxs⟩
      intro a ha
      cases xs with
      | nil =>
          simp at hb
          rcases List.mem_singleton.mp ha with rfl
          rw [hb]
      | cons y ys =>
          rw [List.getLast?_cons_cons] at hb
          rcases List.mem_cons.mp ha with rfl | ha2
          · exact hx b (mem_of_getLast?_eq_some hb)
          · exact ih hxs hb a ha2

/-- The sequential relabeling loop of `sun_events` is one single pass of
`shiftRow` over the rows: the fixed map is applied at most once to each row
and never cascades. -/
theorem relabelAll_eq_map (rows : List TimeRow) : relabelAll rows = rows.map shiftRow := by
  simp only [relabelAll, settingShifts, List.foldl_cons, List.foldl_nil, relabelStep,
    List.map_map]
  refine List.map_congr_left ?_
  intro r _
  rcases r with ⟨ph, dir, dt⟩
  cases dir <;> cases ph <;> rfl

theorem shiftRow_datetime (r : TimeRow) : (shiftRow r).datetime = r.datetime := by
  unfold shiftRow
  split <;> rfl

theorem sunEvents_eq_map (eph : Ephem) (base : ObsState) (startD endD : Int) :
    sunEvents eph base startD endD
      = (sortByDatetime (melt (sunEventsRaw eph base startD endD))).map shiftRow :=
  relabelAll_eq_map _

theorem sortByDatetime_sorted (rows : List TimeRow) :
    (sortByDatetime rows).Pairwise byDatetime :=
  List.sorted_insertionSort byDatetime rows

theorem mem_sortByDatetime {rows : List TimeRow} {r : TimeRow} :
    r ∈ sortByDatetime rows ↔ r ∈ rows :=
  (List.perm_insertionSort byDatetime rows).mem_iff

/-- The relabeled timeline is sorted non-decreasingly by instant. -/
theorem sunEvents_sorted (eph : Ephem) (base : ObsState) (startD endD : Int) :
    (sunEvents eph base startD endD).Pairwise byDatetime := by
  rw [sunEvents_eq_map, List.pairwise_map]
  refine (sortByDatetime_sorted _).imp ?_
  intro a b h
  simpa [byDatetime, shiftRow_datetime] using h

theorem sum_map_const_nat {α : Type} (l : List α) (c : ℕ) :
    (l.map (fun _ => c)).sum = c * l.length := by
  induction l with
  | nil => simp
  | cons a tl ih =>
      simp [ih]
      ring

theorem sunEventsRaw_length (eph : Ephem) (base : ObsState) (startD endD : Int) :
    (sunEventsRaw eph base startD endD).length = 4 * (endD - startD + 1).toNat := by
  unfold sunEventsRaw
  rw [List.length_flatMap]
  have h1 : (List.map
      (List.length ∘ fun d : ℕ => phases.map (fun ph =>
        sunEvent eph { base with date := noonOf (startD + (d : Int)) } ph.2 ph.1))
      (List.range (endD - startD + 1).toNat))
      = List.map (fun _ : ℕ => 4) (List.range (endD - startD + 1).toNat) := by
    refine List.map_congr_left ?_
    intro d _
    simp [phases]
  rw [h1, sum_map_const_nat, List.length_range]

theorem sunEvents_length (eph : Ephem) (base : ObsState) (startD endD : Int) :
    (sunEvents eph base startD endD).length = 8 * (endD - startD + 1).toNat := by
  rw [sunEvents_eq_map, List.length_map, sortByDatetime, List.length_insertionSort]
  have h2 : (melt (sunEventsRaw eph base startD endD)).length
      = (sunEventsRaw eph base startD endD).length
        + (sunEventsRaw eph base startD endD).length := by
    simp [melt]
  rw [h2, sunEventsRaw_length]
  omega

theorem sunEventsRaw_phase (eph : Ephem) (base : ObsState) (startD endD : Int) :
    ∀ ev ∈ sunEventsRaw eph base startD endD,
      ev.phase = ASTRO ∨ ev.phase = NAUTI ∨ ev.phase = CIVIL ∨ ev.phase = SHINE := by
  intro ev hev
  unfold sunEventsRaw at hev
  rw [List.mem_flatMap] at hev
  rcases hev with ⟨d, _, hd⟩
  rw [List.mem_map] at hd
  rcases hd with ⟨ph, hph, rfl⟩
  simp only [phases, List.mem_cons, List.mem_singleton, List.not_mem_nil, or_false] at hph
  rcases hph with rfl | rfl | rfl | rfl <;> simp [sunEvent]

theorem melt_phase {ds : List SunDict} :
    ∀ r ∈ melt ds, ∃ e ∈ ds, r.phase = e.phase := by
  intro r hr
  unfold melt at hr
  rw [List.mem_append] at hr
  rcases hr with hr | hr <;>
    (rw [List.mem_map] at hr; rcases hr with ⟨e, he, rfl⟩; exact ⟨e, he, rfl⟩)

/-- Every phase label on the relabeled timeline is a real twilight label:
`PLANS` never appears on the timeline. -/
theorem sunEvents_phase_ne_plans (eph : Ephem) (base : ObsState) (startD endD : Int) :
    ∀ r ∈ sunEvents eph base startD endD, r.phase ≠ PLANS := by
  intro r hr
  rw [sunEvents_eq_map, List.mem_map] at hr
  rcases hr with ⟨x, hx, rfl⟩
  have hx2 : x ∈ melt (sunEventsRaw eph base startD endD) := mem_sortByDatetime.mp hx
  rcases melt_phase x hx2 with ⟨e, he, hpe⟩
  have h4 := sunEventsRaw_phase eph base startD endD e he
  unfold shiftRow
  split
  · show setShift x.phase ≠ PLANS
    rw [hpe]
    rcases h4 with h | h | h | h <;> rw [h] <;> decide
  · show x.phase ≠ PLANS
    rw [hpe]
    rcases h4 with h | h | h | h <;> rw [h] <;> decide

/-- The classification fold yields `NIGHT` or a phase present on the
timeline. -/
theorem classify_mem (timeline : List TimeRow) (t : Int) :
    classify timeline t = NIGHT ∨ ∃ e ∈ timeline, classify timeline t = e.phase := by
  rw [classify_eq]
  cases hl : (timeline.filter (fun e => decide (e.datetime ≤ t))).getLast? with
  | none => left; rfl
  | some e =>
      right
      exact ⟨e, List.mem_of_mem_filter (mem_of_getLast?_eq_some hl), rfl⟩

instance : Std.Antisymm (fun a b : Int => a ≤ b) :=
  ⟨@fun _ _ h1 h2 => le_antisymm h1 h2⟩

/-- Looking a key up in a table built by mapping a function over a key list
returns that function's value at the key. -/
theorem lookup_map_key {β : Type} (f : ℕ → β) {keys : List ℕ} {i : ℕ} (h : i ∈ keys) :
    (keys.map (fun k => (k, f k))).lookup i = some (f i) := by
  induction keys with
  | nil => simp at h
  | cons k ks ih =>
      rcases List.mem_cons.mp h with rfl | h2
      · simp [List.lookup_cons]
      · by_cases hik : i = k
        · subst hik
          simp [List.lookup_cons]
        · simp only [List.map_cons, List.lookup_cons, beq_false_of_ne hik]
          exact ih h2

theorem filterMap_eq_map_of_forall {α β : Type} {g : α → Option β} {g2 : α → β} :
    ∀ {l : List α}, (∀ a ∈ l, g a = some (g2 a)) → l.filterMap g = l.map g2 := by
  intro l
  induction l with
  | nil => intro _; rfl
  | cons a tl ih =>
      intro h
      rw [List.filterMap_cons, h a (List.mem_cons_self a tl), List.map_cons,
        ih (fun b hb => h b (List.mem_cons_of_mem a hb))]

theorem length_filter_partition {α : Type} (l : List α) (q p : α → Bool) :
    (l.filter q).length
      = (l.filter (fun a => q a && !(p a))).length
        + (l.filter (fun a => q a && p a)).length := by
  induction l with
  | nil => rfl
  | cons a tl ih =>
      by_cases hq : q a
      · by_cases hp : p a <;> simp [List.filter_cons, hq, hp, ih] <;> omega
      · simp [List.filter_cons, hq, ih]

/-- On a nonempty point set, `_observer_init` succeeds and returns the
per-axis medians and the earliest-timestamp date. -/
theorem observerInit_eq {tracks : List Track} (h : walkPoints tracks ≠ []) :
    observerInit tracks =
      Except.ok
        { lat := npMedian ((walkPoints tracks).map (fun p => p.latitude))
          lon := npMedian ((walkPoints tracks).map (fun p => p.longitude))
          date := timeBoundsStart tracks } := by
  have h1 : ((walkPoints tracks).map (fun p => (p.latitude, p.longitude))).map Prod.fst
      = (walkPoints tracks).map (fun p => p.latitude) := by
    rw [List.map_map]
    rfl
  have h2 : ((walkPoints tracks).map (fun p => (p.latitude, p.longitude))).map Prod.snd
      = (walkPoints tracks).map (fun p => p.longitude) := by
    rw [List.map_map]
    rfl
  have hcond : ((walkPoints tracks).map (fun p => (p.latitude, p.longitude))).isEmpty
      = false := by
    simp [List.isEmpty_iff, h]
  simp only [observerInit, h1, h2, hcond, Bool.false_eq_true, if_false]

/-- Every record's id is among the group keys of its own frame. -/
theorem mem_groupKeys {wp : List PhasedRec} {r : PhasedRec} (hr : r ∈ wp) :
    r.id ∈ groupKeys wp := by
  unfold groupKeys
  refine ((List.perm_insertionSort (fun a b : ℕ => a ≤ b) _).mem_iff).mpr ?_
  rw [List.mem_dedup, List.mem_map]
  exact ⟨r, hr, rfl⟩

theorem firstTable_lookup {wp : List PhasedRec} {r : PhasedRec} (hr : r ∈ wp) :
    (firstTable wp).lookup r.id
      = some (((wp.find? (fun x => x.id == r.id)).map (fun x => x.phase)).getD PLANS) := by
  unfold firstTable
  exact lookup_map_key _ (mem_groupKeys hr)

theorem lastTable_lookup {wp : List PhasedRec} {r : PhasedRec} (hr : r ∈ wp) :
    (lastTable wp).lookup r.id
      = some (((wp.reverse.find? (fun x => x.id == r.id)).map (fun x => x.phase)).getD PLANS) := by
  unfold lastTable
  exact lookup_map_key _ (mem_groupKeys hr)

/-- The inner merges of `_expand_time_info` never drop a row: every record's
id is present in both groupby tables, so the whole frame is one `map`. -/
theorem expandTimeInfo_eq_map (timeline : List TimeRow) (df : List RawRec) :
    expandTimeInfo timeline df
      = (df.map (addPhase timeline)).map (fun r =>
          { toPhasedRec := r
            start_phase := (((df.map (addPhase timeline)).find?
              (fun x => x.id == r.id)).map (fun x => x.phase)).getD PLANS
            end_phase := ((((df.map (addPhase timeline)).reverse).find?
              (fun x => x.id == r.id)).map (fun x => x.phase)).getD PLANS }) := by
  simp only [expandTimeInfo]
  refine filterMap_eq_map_of_forall ?_
  intro r hr
  rw [firstTable_lookup hr, lastTable_lookup hr]

theorem timeBoundsStart_min {tracks : List Track} {m : Int}
    (hm : timeBoundsStart tracks = some m) :
    m ∈ (walkPoints tracks).filterMap (fun p => p.time) ∧
      ∀ x ∈ (walkPoints tracks).filterMap (fun p => p.time), m ≤ x := by
  unfold timeBoundsStart at hm
  exact (List.min?_eq_some_iff (fun a => le_refl a) (fun a b => min_choice a b)
    (fun a b c => le_min_iff)).mp hm

/-! ### Claims -/

/-- C1: For a record with a valid timestamp `t`, when at least one timeline
breakpoint is at or before `t`, the classifier assigns the phase of the
latest breakpoint whose instant is `≤ t` (an instant maximal among the
breakpoints at or before `t`); the interval is closed at the breakpoint:
whenever `t` equals some breakpoint instant, the chosen breakpoint's
instant is exactly `t`. -/
theorem c1_phase_is_latest_breakpoint (eph : Ephem) (base : ObsState) (startD endD t : Int)
    (hex : ∃ ev ∈ sunEvents eph base startD endD, ev.datetime ≤ t) :
    ∃ ev ∈ sunEvents eph base startD endD,
      ev.datetime ≤ t ∧
      recordPhase (sunEvents eph base startD endD) (some t) = ev.phase ∧
      (∀ b ∈ sunEvents eph base startD endD, b.datetime ≤ t → b.datetime ≤ ev.datetime) ∧
      (∀ b ∈ sunEvents eph base startD endD, b.datetime = t → ev.datetime = t) := by
  have hs : (sunEvents eph base startD endD).Pairwise byDatetime :=
    sunEvents_sorted eph base startD endD
  rcases hex with ⟨e0, he0, ht0⟩
  have he0F : e0 ∈ (sunEvents eph base startD endD).filter
      (fun e => decide (e.datetime ≤ t)) := by
    rw [List.mem_filter]
    exact ⟨he0, by simpa using ht0⟩
  have hFne : (sunEvents eph base startD endD).filter
      (fun e => decide (e.datetime ≤ t)) ≠ [] := List.ne_nil_of_mem he0F
  have hgl := List.getLast?_eq_getLast _ hFne
  set ev := ((sunEvents eph base startD endD).filter
    (fun e => decide (e.datetime ≤ t))).getLast hFne with hev
  have hevF : ev ∈ (sunEvents eph base startD endD).filter
      (fun e => decide (e.datetime ≤ t)) := List.getLast_mem hFne
  have hevL : ev ∈ sunEvents eph base startD endD := List.mem_of_mem_filter hevF
  have hevle : ev.datetime ≤ t := by
    have := (List.mem_filter.mp hevF).2
    simpa using this
  have hmax : ∀ b ∈ sunEvents eph base startD endD, b.datetime ≤ t →
      b.datetime ≤ ev.datetime := by
    intro b hb hbt
    have hbF : b ∈ (sunEvents eph base startD endD).filter
        (fun e => decide (e.datetime ≤ t)) := by
      rw [List.mem_filter]
      exact ⟨hb, by simpa using hbt⟩
    exact pairwise_le_getLast? (hs.filter _) hgl b hbF
  refine ⟨ev, hevL, hevle, ?_, hmax, ?_⟩
  · show recordPhase (sunEvents eph base startD endD) (some t) = ev.phase
    show classify (sunEvents eph base startD endD) t = ev.phase
    rw [classify_eq, hgl]
    rfl
  · intro b hb hbt
    exact le_antisymm hevle (hbt ▸ hmax b hb (le_of_eq hbt))

/-- C1 witness: at the concrete one-day timeline of `wEph`, with `t` equal
to the latest breakpoint instant 938. -/
theorem c1_phase_is_latest_breakpoint_witness :
    (∃ ev ∈ sunEvents wEph baseObs 0 0, ev.datetime ≤ 938) ∧
    (∃ ev ∈ sunEvents wEph baseObs 0 0,
      ev.datetime ≤ 938 ∧
      recordPhase (sunEvents wEph baseObs 0 0) (some 938) = ev.phase ∧
      (∀ b ∈ sunEvents wEph baseObs 0 0, b.datetime ≤ 938 → b.datetime ≤ ev.datetime) ∧
      (∀ b ∈ sunEvents wEph baseObs 0 0, b.datetime = 938 → ev.datetime = 938)) :=
  ⟨by decide, c1_phase_is_latest_breakpoint wEph baseObs 0 0 938 (by decide)⟩

/-- C2: The relabeling loop of the timeline builder is exactly one
application of the fixed map to every `set` event — set(Astronomical) →
Night, set(Nautical) → Astronomical, set(Civil) → Nautical, set(Daytime) →
Civil — while `rise` events keep their label; the sequential loop never
relabels a row twice (no cascade). -/
theorem c2_set_relabeling_single_pass (eph : Ephem) (base : ObsState) (startD endD : Int) :
    sunEvents eph base startD endD
      = (sortByDatetime (melt (sunEventsRaw eph base startD endD))).map shiftRow ∧
    setShift ASTRO = NIGHT ∧ setShift NAUTI = ASTRO ∧
    setShift CIVIL = NAUTI ∧ setShift SHINE = CIVIL ∧
    (∀ r : TimeRow, r.direction = Direction.rise → shiftRow r = r) := by
  refine ⟨sunEvents_eq_map eph base startD endD, rfl, rfl, rfl, rfl, ?_⟩
  intro r hr
  unfold shiftRow
  rw [hr]
  simp

/-- C2 witness: the single-pass form at a concrete oracle. -/
theorem c2_set_relabeling_single_pass_witness :
    sunEvents wEph baseObs 0 0
      = (sortByDatetime (melt (sunEventsRaw wEph baseObs 0 0))).map shiftRow :=
  (c2_set_relabeling_single_pass wEph baseObs 0 0).1

/-- C3 counterexample: with an oracle that answers every query with the
same instant (which the code does nothing to rule out), the one-day
timeline has its 8 breakpoints but is not strictly sorted, so the claim
"8 per day and strictly chronologically sorted" fails as stated. -/
theorem c3_strict_sorted_counterexample :
    ¬ ((sunEvents constEph baseObs 0 0).length = 8 * ((0 : Int) - 0 + 1).toNat ∧
       (sunEvents constEph baseObs 0 0).Pairwise (fun a b => a.datetime < b.datetime)) := by
  intro hcl
  have h2 := hcl.2
  have he : sunEvents constEph baseObs 0 0 =
      [{ phase := ASTRO, direction := Direction.rise, datetime := 0 },
       { phase := NAUTI, direction := Direction.rise, datetime := 0 },
       { phase := CIVIL, direction := Direction.rise, datetime := 0 },
       { phase := SHINE, direction := Direction.rise, datetime := 0 },
       { phase := NIGHT, direction := Direction.set, datetime := 0 },
       { phase := ASTRO, direction := Direction.set, datetime := 0 },
       { phase := NAUTI, direction := Direction.set, datetime := 0 },
       { phase := CIVIL, direction := Direction.set, datetime := 0 }] := by decide
  rw [he] at h2
  rcases List.pairwise_cons.mp h2 with ⟨hhead, _⟩
  have hlt := hhead { phase := NAUTI, direction := Direction.rise, datetime := 0 } (by simp)
  exact absurd hlt (by decide)

/-- C3 amended: the timeline carries, unconditionally, exactly 8
breakpoints per mission day (8 × number of days from start to end
inclusive) and is sorted non-decreasingly by instant; additionally it is
strictly sorted whenever the event instants are pairwise distinct —
strictness is not guaranteed by the code itself, only by distinctness of
the oracle's answers. -/
theorem c3_amended_eight_per_day_sorted (eph : Ephem) (base : ObsState) (startD endD : Int) :
    (sunEvents eph base startD endD).length = 8 * (endD - startD + 1).toNat ∧
    (sunEvents eph base startD endD).Pairwise (fun a b => a.datetime ≤ b.datetime) ∧
    (((sunEvents eph base startD endD).map (fun r => r.datetime)).Nodup →
      (sunEvents eph base startD endD).Pairwise (fun a b => a.datetime < b.datetime)) := by
  refine ⟨sunEvents_length eph base startD endD, sunEvents_sorted eph base startD endD, ?_⟩
  intro hnd
  have hne : (sunEvents eph base startD endD).Pairwise
      (fun a b => a.datetime ≠ b.datetime) := by
    have hnd2 : ((sunEvents eph base startD endD).map (fun r => r.datetime)).Pairwise
        (fun a b => a ≠ b) := hnd
    exact (List.pairwise_map).mp hnd2
  exact ((sunEvents_sorted eph base startD endD).and hne).imp
    (fun h => lt_of_le_of_ne h.1 h.2)

/-- C3 amended witness: the distinct-instants oracle for one day satisfies
the strictness side condition, and the theorem then yields the count, the
non-decreasing sortedness and the strict sortedness there. -/
theorem c3_amended_eight_per_day_sorted_witness :
    ((sunEvents wEph baseObs 0 0).map (fun r => r.datetime)).Nodup ∧
    ((sunEvents wEph baseObs 0 0).length = 8 * ((0 : Int) - 0 + 1).toNat ∧
     (sunEvents wEph baseObs 0 0).Pairwise (fun a b => a.datetime ≤ b.datetime) ∧
     (sunEvents wEph baseObs 0 0).Pairwise (fun a b => a.datetime < b.datetime)) :=
  ⟨by decide,
   (c3_amended_eight_per_day_sorted wEph baseObs 0 0).1,
   (c3_amended_eight_per_day_sorted wEph baseObs 0 0).2.1,
   (c3_amended_eight_per_day_sorted wEph baseObs 0 0).2.2 (by decide)⟩

/-- C4 counterexample: with an oracle whose breakpoints all lie at or after
instant 800, a record timestamped at 5 — earlier than every breakpoint — is
classified `Night`, not the `Planning` default, so the claim fails as
stated (while a record with no timestamp does get the default). -/
theorem c4_pre_first_breakpoint_counterexample :
    (∀ ev ∈ sunEvents lateEph baseObs 0 0, (5 : Int) < ev.datetime) ∧
    recordPhase (sunEvents lateEph baseObs 0 0) (some 5) = NIGHT ∧
    recordPhase (sunEvents lateEph baseObs 0 0) (some 5) ≠ PLANS ∧
    recordPhase (sunEvents lateEph baseObs 0 0) none = PLANS := by decide

/-- C4 amended: a record whose valid timestamp precedes the instant of
every timeline breakpoint is assigned `Night` (the default written over all
timestamped records before the event scan), not the `Planning` default;
only records with no timestamp keep `Planning`. -/
theorem c4_amended_pre_first_breakpoint_night (timeline : List TimeRow) (t : Int)
    (h : ∀ e ∈ timeline, t < e.datetime) :
    recordPhase timeline (some t) = NIGHT ∧ recordPhase timeline none = PLANS := by
  refine ⟨?_, rfl⟩
  show classify timeline t = NIGHT
  rw [classify_eq]
  have hnil : timeline.filter (fun e => decide (e.datetime ≤ t)) = [] := by
    rw [List.filter_eq_nil_iff]
    intro e he
    simpa using not_le_of_gt (h e he)
  rw [hnil]
  rfl

/-- C4 amended witness: at the concrete late-breakpoint timeline with
`t = 5`. -/
theorem c4_amended_pre_first_breakpoint_night_witness :
    (∀ e ∈ sunEvents lateEph baseObs 0 0, (5 : Int) < e.datetime) ∧
    (recordPhase (sunEvents lateEph baseObs 0 0) (some 5) = NIGHT ∧
     recordPhase (sunEvents lateEph baseObs 0 0) none = PLANS) :=
  ⟨by decide,
   c4_amended_pre_first_breakpoint_night (sunEvents lateEph baseObs 0 0) 5 (by decide)⟩

/-- C5: On a nonempty point set the derived observer's latitude is the
median of all walked points' latitudes and its longitude the median of all
their longitudes, each computed independently per axis, and its reference
date is the mission's earliest timestamp (the minimum over all present
timestamps, the modelled `get_time_bounds().start_time`). -/
theorem c5_observer_median_location (tracks : List Track) (h : walkPoints tracks ≠ []) :
    ∃ obs : Observer, observerInit tracks = Except.ok obs ∧
      obs.lat = npMedian ((walkPoints tracks).map (fun p => p.latitude)) ∧
      obs.lon = npMedian ((walkPoints tracks).map (fun p => p.longitude)) ∧
      obs.date = timeBoundsStart tracks ∧
      ∀ m ∈ timeBoundsStart tracks,
        m ∈ (walkPoints tracks).filterMap (fun p => p.time) ∧
        ∀ x ∈ (walkPoints tracks).filterMap (fun p => p.time), m ≤ x := by
  refine ⟨_, observerInit_eq h, rfl, rfl, rfl, ?_⟩
  intro m hm
  exact timeBoundsStart_min (Option.mem_def.mp hm)

/-- C5 witness: the concrete one-track input (latitudes 1, 5, 3 and
longitudes 2, 4, 6, timestamps 100, none, 50). -/
theorem c5_observer_median_location_witness :
    walkPoints wTracks ≠ [] ∧
    (∃ obs : Observer, observerInit wTracks = Except.ok obs ∧
      obs.lat = npMedian ((walkPoints wTracks).map (fun p => p.latitude)) ∧
      obs.lon = npMedian ((walkPoints wTracks).map (fun p => p.longitude)) ∧
      obs.date = timeBoundsStart wTracks ∧
      ∀ m ∈ timeBoundsStart wTracks,
        m ∈ (walkPoints wTracks).filterMap (fun p => p.time) ∧
        ∀ x ∈ (walkPoints wTracks).filterMap (fun p => p.time), m ≤ x) :=
  ⟨by decide, c5_observer_median_location wTracks (by decide)⟩

/-- C6: For every day of the mission span (start to end inclusive), the
observer's clock is anchored at 12:00 of that day before the oracle is
queried, for each of the four horizon angles; and — under the external
oracle's contract that `previous_rising` is at or before the observer's
clock and `next_setting` at or after it — every generated event brackets
its day's noon anchor.  Conversely every raw event arises this way. -/
theorem c6_daily_noon_anchor (eph : Ephem) (base : ObsState) (startD endD : Int)
    (hrise : ∀ st : ObsState, eph.prevRise st ≤ st.date)
    (hset : ∀ st : ObsState, st.date ≤ eph.nextSet st) :
    (∀ d : ℕ, d < (endD - startD + 1).toNat → ∀ ph ∈ phases,
      sunEvent eph { base with date := noonOf (startD + (d : Int)) } ph.2 ph.1
        ∈ sunEventsRaw eph base startD endD) ∧
    (∀ ev ∈ sunEventsRaw eph base startD endD, ∃ d : ℕ,
      d < (endD - startD + 1).toNat ∧ ∃ hz : Int, (ev.phase, hz) ∈ phases ∧
      ev = sunEvent eph { base with date := noonOf (startD + (d : Int)) } hz ev.phase ∧
      ev.rise ≤ noonOf (startD + (d : Int)) ∧ noonOf (startD + (d : Int)) ≤ ev.set) := by
  constructor
  · intro d hd ph hph
    unfold sunEventsRaw
    rw [List.mem_flatMap]
    exact ⟨d, List.mem_range.mpr hd, List.mem_map.mpr ⟨ph, hph, rfl⟩⟩
  · intro ev hev
    unfold sunEventsRaw at hev
    rw [List.mem_flatMap] at hev
    rcases hev with ⟨d, hd, hev⟩
    rw [List.mem_map] at hev
    rcases hev with ⟨ph, hph, rfl⟩
    exact ⟨d, List.mem_range.mp hd, ph.2, hph, rfl, hrise _, hset _⟩

/-- C6 witness: the well-behaved oracle satisfies the bracketing contract,
and the astronomical-dawn event of day 0 is generated from the noon-anchored
state. -/
theorem c6_daily_noon_anchor_witness :
    sunEvent wEph { baseObs with date := noonOf (0 + ((0 : ℕ) : Int)) } ASTRO_HORIZ ASTRO
      ∈ sunEventsRaw wEph baseObs 0 0 :=
  (c6_daily_noon_anchor wEph baseObs 0 0
      (fun st => by
        show st.date - 200 - (st.horizon.natAbs : Int) ≤ st.date
        omega)
      (fun st => by
        show st.date ≤ st.date + 200 + (st.horizon.natAbs : Int)
        omega)).1
    0 (by decide) (ASTRO, ASTRO_HORIZ) (by decide)

/-- C7 counterexample: on an empty input the observer initialisation fails,
but with the unpacking `TypeError`, not with `InsufficientDataError` — the
code defines no such error type. -/
theorem c7_insufficient_data_counterexample :
    observerInit [] = Except.error PyError.typeError ∧
    observerInit [] ≠ Except.error PyError.insufficientDataError := by
  refine ⟨rfl, fun hcontra => ?_⟩
  have h2 : (Except.error PyError.typeError : Except PyError Observer)
      = Except.error PyError.insufficientDataError := hcontra
  simp at h2

/-- C7 amended: when the input contains no track points at all, the
analysis does fail — `_observer_init` raises — but the error is the
unpacking `TypeError` produced by `np.median` of the empty array, not an
`InsufficientDataError`, which exists nowhere in the code. -/
theorem c7_amended_empty_fails_type_error (tracks : List Track)
    (h : walkPoints tracks = []) :
    observerInit tracks = Except.error PyError.typeError ∧
    observerInit tracks ≠ Except.error PyError.insufficientDataError := by
  have hc : ((walkPoints tracks).map (fun p => (p.latitude, p.longitude))).isEmpty
      = true := by
    rw [h]
    rfl
  have he : observerInit tracks = Except.error PyError.typeError := by
    simp [observerInit, hc]
  refine ⟨he, ?_⟩
  rw [he]
  simp

/-- C7 amended witness: the empty track list. -/
theorem c7_amended_empty_fails_type_error_witness :
    walkPoints [] = [] ∧
    (observerInit [] = Except.error PyError.typeError ∧
     observerInit [] ≠ Except.error PyError.insufficientDataError) :=
  ⟨by decide, c7_amended_empty_fails_type_error [] (by decide)⟩

/-- C8: For every track id, the records returned by `track_data(time=None)`
for that track are exactly the disjoint union of those returned by
`track_data(time=True)` and `track_data(time=False)`: the row counts add up
and every record of the track is in exactly one of the two filtered
results. -/
theorem c8_time_filter_partition (timeline : List TimeRow) (tracks : List Track) (t : ℕ) :
    ((trackData timeline tracks none).filter (fun r => r.id == t)).length
      = ((trackData timeline tracks (some true)).filter (fun r => r.id == t)).length
        + ((trackData timeline tracks (some false)).filter (fun r => r.id == t)).length ∧
    ∀ r ∈ (trackData timeline tracks none).filter (fun r => r.id == t),
      ((r ∈ (trackData timeline tracks (some true)).filter (fun r => r.id == t)) ↔
        ¬ r ∈ (trackData timeline tracks (some false)).filter (fun r => r.id == t)) := by
  have hnone : trackData timeline tracks none
      = expandTimeInfo timeline (allTracksDf tracks) := rfl
  have htrue : trackData timeline tracks (some true)
      = (expandTimeInfo timeline (allTracksDf tracks)).filter (fun r => !r.utc.isNone) := rfl
  have hfalse : trackData timeline tracks (some false)
      = (expandTimeInfo timeline (allTracksDf tracks)).filter (fun r => r.utc.isNone) := rfl
  rw [hnone, htrue, hfalse]
  constructor
  · rw [List.filter_filter, List.filter_filter]
    exact length_filter_partition (expandTimeInfo timeline (allTracksDf tracks))
      (fun r => r.id == t) (fun r => r.utc.isNone)
  · intro r hr
    rcases List.mem_filter.mp hr with ⟨hrE, hrid⟩
    simp only [List.mem_filter]
    cases hU : r.utc with
    | none => simp [hrE, hrid, hU]
    | some v => simp [hrE, hrid, hU]

/-- C8 witness: the row counts add up on the concrete input. -/
theorem c8_time_filter_partition_witness :
    ((trackData wTimeline wTracks none).filter (fun r => r.id == 0)).length
      = ((trackData wTimeline wTracks (some true)).filter (fun r => r.id == 0)).length
        + ((trackData wTimeline wTracks (some false)).filter (fun r => r.id == 0)).length :=
  (c8_time_filter_partition wTimeline wTracks 0).1

/-- C9: No input record is dropped by `_expand_time_info` — the output is
the input frame with phases added, in order — and every output record's
`start_phase` (resp. `end_phase`) is the classified phase of the first
(resp. last) record carrying the same track id, in original record order. -/
theorem c9_start_end_phase_first_last (timeline : List TimeRow) (df : List RawRec) :
    (expandTimeInfo timeline df).map (fun o => o.toPhasedRec)
      = df.map (addPhase timeline) ∧
    ∀ o ∈ expandTimeInfo timeline df,
      (∃ f ∈ df, df.find? (fun x => x.id == o.id) = some f ∧
        o.start_phase = recordPhase timeline f.utc) ∧
      (∃ g ∈ df, df.reverse.find? (fun x => x.id == o.id) = some g ∧
        o.end_phase = recordPhase timeline g.utc) := by
  constructor
  · rw [expandTimeInfo_eq_map, List.map_map]
    exact List.map_id' _
  · intro o ho
    rw [expandTimeInfo_eq_map, List.mem_map] at ho
    rcases ho with ⟨r, hr, rfl⟩
    have hmap : (df.map (addPhase timeline)).find? (fun x => x.id == r.id)
        = Option.map (addPhase timeline) (df.find? (fun x => x.id == r.id)) := by
      rw [List.find?_map]
      rfl
    constructor
    · have hsome : ((df.map (addPhase timeline)).find? (fun x => x.id == r.id)).isSome := by
        rw [List.find?_isSome]
        exact ⟨r, hr, by simp⟩
      rw [hmap] at hsome
      cases hf0 : df.find? (fun x => x.id == r.id) with
      | none => rw [hf0] at hsome; simp at hsome
      | some f0 =>
          refine ⟨f0, List.mem_of_find?_eq_some hf0, rfl, ?_⟩
          show (((df.map (addPhase timeline)).find? (fun x => x.id == r.id)).map
            (fun x => x.phase)).getD PLANS = recordPhase timeline f0.utc
          rw [hmap, hf0]
          rfl
    · have hrev : (df.map (addPhase timeline)).reverse
          = df.reverse.map (addPhase timeline) := (List.map_reverse _ _).symm
      have hmap2 : (df.reverse.map (addPhase timeline)).find? (fun x => x.id == r.id)
          = Option.map (addPhase timeline) (df.reverse.find? (fun x => x.id == r.id)) := by
        rw [List.find?_map]
        rfl
      have hsome : ((df.reverse.map (addPhase timeline)).find?
          (fun x => x.id == r.id)).isSome := by
        rw [List.find?_isSome]
        refine ⟨r, ?_, by simp⟩
        rw [← hrev]
        exact List.mem_reverse.mpr hr
      rw [hmap2] at hsome
      cases hg0 : df.reverse.find? (fun x => x.id == r.id) with
      | none => rw [hg0] at hsome; simp at hsome
      | some g0 =>
          refine ⟨g0, List.mem_reverse.mp (List.mem_of_find?_eq_some hg0), rfl, ?_⟩
          show ((((df.map (addPhase timeline)).reverse).find?
            (fun x => x.id == r.id)).map (fun x => x.phase)).getD PLANS
            = recordPhase timeline g0.utc
          rw [hrev, hmap2, hg0]
          rfl

/-- C9 witness: the no-drop equality on the concrete input. -/
theorem c9_start_end_phase_first_last_witness :
    (expandTimeInfo wTimeline (allTracksDf wTracks)).map (fun o => o.toPhasedRec)
      = (allTracksDf wTracks).map (addPhase wTimeline) :=
  (c9_start_end_phase_first_last wTimeline (allTracksDf wTracks)).1

/-- C10: A record is classified `Planning` exactly when its timestamp is
missing; in particular a timestamped record earlier than every breakpoint
is labeled `Night`, not `Planning`. -/
theorem c10_plans_iff_no_timestamp (eph : Ephem) (base : ObsState) (startD endD : Int)
    (utc : Option Int) :
    (recordPhase (sunEvents eph base startD endD) utc = PLANS ↔ utc = none) ∧
    (∀ t : Int, (∀ ev ∈ sunEvents eph base startD endD, t < ev.datetime) →
      recordPhase (sunEvents eph base startD endD) (some t) = NIGHT) := by
  constructor
  · constructor
    · intro hp
      cases utc with
      | none => rfl
      | some t =>
          exfalso
          have hcl : classify (sunEvents eph base startD endD) t = PLANS := hp
          rcases classify_mem (sunEvents eph base startD endD) t with hn | ⟨e, he, hph⟩
          · rw [hn] at hcl
            exact absurd hcl (by decide)
          · rw [hph] at hcl
            exact sunEvents_phase_ne_plans eph base startD endD e he hcl
    · intro h
      subst h
      rfl
  · intro t ht
    show classify (sunEvents eph base startD endD) t = NIGHT
    rw [classify_eq]
    have hnil : (sunEvents eph base startD endD).filter
        (fun e => decide (e.datetime ≤ t)) = [] := by
      rw [List.filter_eq_nil_iff]
      intro e he
      simpa using not_le_of_gt (ht e he)
    rw [hnil]
    rfl

/-- C10 witness: at the concrete timeline, a timestamped record is not
`Planning`, and a timestamp below every breakpoint yields `Night`. -/
theorem c10_plans_iff_no_timestamp_witness :
    (recordPhase (sunEvents wEph baseObs 0 0) (some 100) = PLANS ↔
      (some 100 : Option Int) = none) ∧
    recordPhase (sunEvents wEph baseObs 0 0) (some (-5)) = NIGHT :=
  ⟨(c10_plans_iff_no_timestamp wEph baseObs 0 0 (some 100)).1,
   (c10_plans_iff_no_timestamp wEph baseObs 0 0 (some 100)).2 (-5) (by decide)⟩

end Geosar
